import Mathlib

/-!
# Verification of the extract-text content-acquisition core

Shallow embedding of the secure content-acquisition layer of the
`extract-text` service (`app/extractors.py`, `app/utils.py`, `app/config.py`)
and proofs about it.  Python string/byte operations are modelled over
`String`/`List Char` (byte strings are ASCII in every input the claims
exercise); machine integers do not overflow in any of the modelled code
paths, so `Nat`/`Int` are used directly.
-/

namespace ExtractText

/-! ## String helpers (models of the Python `str` operations used) -/

/-- Model of the Python substring test: does the list `needle` occur
contiguously inside `hay`?  (Left-to-right scan, as in `needle in hay`.) -/
def subOccurs (needle : List Char) : List Char → Bool
  | [] => needle.isEmpty
  | c :: rest => needle.isPrefixOf (c :: rest) || subOccurs needle rest

/-- Model of Python `needle in hay` for strings. -/
def strContains (hay needle : String) : Bool :=
  subOccurs needle.toList hay.toList

/-- Model of Python `s.replace("..", "")`: remove non-overlapping occurrences
of `".."`, scanning left to right. -/
def replaceDD : List Char → List Char
  | [] => []
  | [c] => [c]
  | c :: d :: rest =>
    if c = '.' ∧ d = '.' then replaceDD rest
    else c :: replaceDD (d :: rest)

/-- No two consecutive dots occur (the substring `".."` is absent). -/
def noDoubleDot : List Char → Bool
  | c :: d :: rest => !((c == '.') && (d == '.')) && noDoubleDot (d :: rest)
  | _ => true

/-- Model of Python `s.strip('/')`: drop `'/'` from both ends. -/
def stripSlashes (l : List Char) : List Char :=
  ((l.dropWhile (· = '/')).reverse.dropWhile (· = '/')).reverse

/-- Model of Python `s.split(sep)` for a one-character separator (always
returns at least one piece). -/
def splitOnChar (sep : Char) : List Char → List (List Char)
  | [] => [[]]
  | c :: rest =>
    if c = sep then [] :: splitOnChar sep rest
    else
      match splitOnChar sep rest with
      | [] => [[c]]
      | seg :: segs => (c :: seg) :: segs

/-- `s.split(sep)` at the `String` level. -/
def strSplitOnChar (sep : Char) (s : String) : List String :=
  (splitOnChar sep s.data).map (fun l => String.mk l)

/-- Model of Python `s.lower()` (the inputs involved are ASCII). -/
def pyLower (s : String) : String :=
  String.mk (s.data.map Char.toLower)

/-- Model of Python `s.strip()`: drop whitespace from both ends. -/
def pyTrim (s : String) : String :=
  String.mk (((s.data.dropWhile Char.isWhitespace).reverse.dropWhile
    Char.isWhitespace).reverse)

/-- Model of Python `s.endswith(t)`. -/
def pyEndsWith (s t : String) : Bool :=
  t.data.isSuffixOf s.data

/-! ## `app/utils.py`: extensions and format tables (`app/config.py`) -/

/-- `get_file_extension` from `app/utils.py`: `None` when the name is empty or
has no dot; the compound tar extensions are special-cased on the lowered name;
otherwise the last dot-separated piece, lowered. -/
def get_file_extension (filename : String) : Option String :=
  if filename = "" ∨ ¬ filename.data.contains '.' then none
  else
    let filename_lower := pyLower filename
    if pyEndsWith filename_lower ".tar.gz" ∨ pyEndsWith filename_lower ".tgz" then some "tar.gz"
    else if pyEndsWith filename_lower ".tar.bz2" ∨ pyEndsWith filename_lower ".tbz2" then some "tar.bz2"
    else if pyEndsWith filename_lower ".tar.xz" ∨ pyEndsWith filename_lower ".txz" then some "tar.xz"
    else some (pyLower ((strSplitOnChar '.' filename).getLastD ""))

/-- `Settings.SUPPORTED_FORMATS["archives"]` from `app/config.py`. -/
def SUPPORTED_FORMATS_archives : List String :=
  ["zip", "rar", "7z", "tar", "gz", "bz2", "xz", "tgz", "tbz2", "txz",
   "tar.gz", "tar.bz2", "tar.xz"]

/-- The non-archive groups of `Settings.SUPPORTED_FORMATS` from
`app/config.py`, concatenated in dictionary order
(images_ocr, documents, spreadsheets, presentations, structured_data,
source_code, other). -/
def SUPPORTED_FORMATS_nonarchive : List String :=
  ["jpg", "jpeg", "png", "tiff", "tif", "bmp", "gif"] ++
  ["doc", "docx", "pdf", "rtf", "odt"] ++
  ["csv", "xls", "xlsx", "ods"] ++
  ["pptx", "ppt"] ++
  ["json", "xml", "yaml", "yml"] ++
  ["py", "pyx", "pyi", "pyw",
   "js", "jsx", "ts", "tsx", "mjs", "cjs",
   "java", "jav",
   "c", "cpp", "cxx", "cc", "c++", "h", "hpp", "hxx", "h++",
   "cs", "csx",
   "php", "php3", "php4", "php5", "phtml",
   "rb", "rbw", "rake", "gemspec",
   "go", "mod", "sum",
   "rs", "rlib",
   "swift",
   "kt", "kts",
   "scala", "sc",
   "r", "rmd",
   "sql", "ddl", "dml",
   "sh", "bash", "zsh", "fish", "ksh", "csh", "tcsh",
   "ps1", "psm1", "psd1",
   "pl", "pm", "pod", "t",
   "lua",
   "bsl", "os",
   "ini", "cfg", "conf", "config", "toml", "properties",
   "css", "scss", "sass", "less", "styl",
   "tex", "latex", "rst", "adoc", "asciidoc",
   "jsonl", "ndjson", "jsonc",
   "dockerfile", "containerfile",
   "makefile", "mk", "mak",
   "gitignore", "gitattributes", "gitmodules"] ++
  ["txt", "html", "htm", "md", "markdown", "epub", "eml", "msg"]

/-- `is_supported_format` from `app/utils.py`: the extension occurs in some
group of `SUPPORTED_FORMATS` (archives included). -/
def is_supported_format (filename : String) : Bool :=
  match get_file_extension filename with
  | none => false
  | some e => (SUPPORTED_FORMATS_nonarchive ++ SUPPORTED_FORMATS_archives).contains e

/-- `is_archive_format` from `app/utils.py`. -/
def is_archive_format (filename : String) : Bool :=
  match get_file_extension filename with
  | none => false
  | some e => SUPPORTED_FORMATS_archives.contains e

/-! ## `TextExtractor._sanitize_archive_filename` and
`TextExtractor._is_system_file` (`app/extractors.py` lines 1626-1658) -/

/-- The surviving path segments of `_sanitize_archive_filename`: remove the
substring `".."` everywhere, turn backslashes into `'/'`, strip `'/'` from
both ends (the subsequent explicit leading-`'/'` drop of the source is
retained although it can no longer fire), split on `'/'` and keep the
segments that are neither empty nor `"."`. -/
def sanitizeSegs (filename : String) : List (List Char) :=
  let l0 := replaceDD filename.toList
  let l1 := l0.map (fun c => if c = '\\' then '/' else c)
  let l2 := stripSlashes l1
  let l3 := if l2.head? = some '/' then l2.drop 1 else l2
  (splitOnChar '/' l3).filter (fun p => !p.isEmpty && p != ['.'])

/-- `_sanitize_archive_filename` from `app/extractors.py`. -/
def _sanitize_archive_filename (filename : String) : String :=
  if filename = "" then ""
  else
    let parts := sanitizeSegs filename
    if parts.isEmpty then "" else ⟨List.intercalate ['/'] parts⟩

/-- The `system_files` list of `_is_system_file`, verbatim (note the
mixed-case entries). -/
def system_files : List String :=
  [".DS_Store", "Thumbs.db", ".git/", ".svn/", ".hg/",
   "__MACOSX/", ".localized", "desktop.ini", "folder.ini"]

/-- `_is_system_file` from `app/extractors.py`: lowercase the path, then test
each (not lowercased) list entry for substring occurrence. -/
def _is_system_file (filename : String) : Bool :=
  let filename_lower := pyLower filename
  system_files.any (fun sf => strContains filename_lower sf)

/-! ## Archive data model

A virtual file is either a plain file (its decoded byte content, ASCII in
every input the claims exercise) or a zip container: the container's own byte
size together with its central-directory entries in native order.  Each entry
carries the container-supplied member name, the directory flag, the declared
(uncompressed) size from the zip metadata — which an adversarial container
may state independently of the actual data — and the member's content. -/

mutual

inductive VFile : Type where
  | plain (data : String) : VFile
  | zipArchive (containerSize : Nat) (entries : ZEntries) : VFile
deriving DecidableEq, Repr

inductive ZEntries : Type where
  | nil : ZEntries
  | cons (name : String) (isDir : Bool) (declaredSize : Nat) (data : VFile)
      (rest : ZEntries) : ZEntries
deriving DecidableEq, Repr

end

deriving instance DecidableEq for Except

/-- Byte length of a virtual file (`len(content)` in the source). -/
def vfileLen : VFile → Nat
  | .plain data => data.length
  | .zipArchive containerSize _ => containerSize

/-- `Settings` fields governing archives (`app/config.py` defaults:
`MAX_ARCHIVE_SIZE = 20971520`, `MAX_EXTRACTED_SIZE = 104857600`,
`MAX_ARCHIVE_NESTING = 3`). -/
structure ArchiveSettings where
  MAX_ARCHIVE_SIZE : Nat
  MAX_EXTRACTED_SIZE : Nat
  MAX_ARCHIVE_NESTING : Nat
deriving DecidableEq, Repr

/-- The defaulted settings from `app/config.py`. -/
def defaultSettings : ArchiveSettings :=
  { MAX_ARCHIVE_SIZE := 20971520
    MAX_EXTRACTED_SIZE := 104857600
    MAX_ARCHIVE_NESTING := 3 }

/-- One element of the result list built by the extractors:
`{filename, path, size, type, text}` (the `type` key is `ftype` here). -/
structure ExtractionUnit where
  filename : String
  path : String
  size : Nat
  ftype : String
  text : String
deriving DecidableEq, Repr

/-- Last `'/'`-separated component of a sanitized member path
(`safe_path.name` in the source). -/
def basenameOf (path : String) : String :=
  (strSplitOnChar '/' path).getLastD ""

/-- Model of `_extract_text_by_format` for plain-text members.  The
per-format parsers are external collaborators (spec section 1: each is a thin
call into a parsing library, out of the verified core); the model returns the
member's decoded data, which is exact for `txt` members — the only kind of
non-archive member the claims exercise. -/
def _extract_text_by_format (data : String) (_extension : String) : String :=
  data

/-- Declared-size total of a single archive's non-directory members — the
quantity accumulated in `total_size` by the pre-scan loop of
`_extract_zip_files`. -/
def zipDeclaredSum : ZEntries → Nat
  | .nil => 0
  | .cons _ isDir declaredSize _ rest =>
    (if isDir then 0 else declaredSize) + zipDeclaredSum rest

/-- The pre-scan loop of `_extract_zip_files` (`app/extractors.py` lines
1376-1384): walk the entries in order, skipping directories, accumulating
declared sizes into a running total and failing as soon as the total exceeds
`MAX_EXTRACTED_SIZE`.  Returns the raised message, if any. -/
def zip_prescan (S : ArchiveSettings) : ZEntries → Nat → Option String
  | .nil, _ => none
  | .cons _ isDir declaredSize _ rest, total =>
    if isDir then zip_prescan S rest total
    else
      let total' := total + declaredSize
      if total' > S.MAX_EXTRACTED_SIZE then
        some "Extracted files size exceeds maximum allowed size (zip bomb protection)"
      else zip_prescan S rest total'

/-! The recursion of `_extract_from_archive` descends into member contents
while incrementing `nesting_level`; its depth is bounded because the
nesting guard rejects at `MAX_ARCHIVE_NESTING`.  To keep every definition
structurally recursive (hence kernel-executable), the per-member functions
receive the extractor for the next nesting level as the explicit argument
`deeper`, and `_extract_from_archive` recurses on a `fuel` argument
holding the remaining admissible depth: the entry points pass
`MAX_ARCHIVE_NESTING`, each level passes the extractor for `fuel - 1`
downwards, and the exhausted case is unreachable from the entry points,
because `fuel = 0` can only be reached together with
`nesting_level ≥ MAX_ARCHIVE_NESTING`, which the guard has already
rejected. -/

/-- The result type of an archive extraction: the units (or the raised
error message) together with the trace of extracted-member disk writes
(the sanitized path of every member the extraction loop wrote into the
job's private directory, in order). -/
abbrev ExtractResult := Except String (List ExtractionUnit) × List String

/-- `_process_extracted_file` (`app/extractors.py` lines 1600-1624): an
archive-format member recurses with `nesting_level + 1` (through `deeper`;
any failure of the recursion is caught by the surrounding `except`,
yielding `none`); a supported member becomes one unit whose `path` is
`archive_name ++ "/" ++ filename`; anything else is dropped silently. -/
def _process_extracted_file (deeper : VFile → String → Nat → ExtractResult)
    (content : VFile) (filename : String) (basename : String)
    (archive_name : String) (nesting_level : Nat) :
    Option (List ExtractionUnit) × List String :=
  if is_archive_format basename then
    match deeper content basename (nesting_level + 1) with
    | (.ok units, ws) => (some units, ws)
    | (.error _, ws) => (none, ws)
  else if is_supported_format basename then
    let extension := (get_file_extension basename).getD ""
    let text := _extract_text_by_format (match content with
      | .plain data => data
      | .zipArchive _ _ => "") extension
    (some [{ filename := basename
             path := archive_name ++ "/" ++ filename
             size := vfileLen content
             ftype := extension
             text := pyTrim text }], [])
  else (none, [])

/-- The extraction loop of `_extract_zip_files` (`app/extractors.py` lines
1386-1420): skip directories, skip members whose name sanitizes to empty,
skip system files, write the member under its sanitized path (recorded in
the write trace), process it, and collect whatever units processing
returned; member-level failures are caught and skipped. -/
def zip_extract_loop (deeper : VFile → String → Nat → ExtractResult)
    (entries : ZEntries) (archive_name : String) (nesting_level : Nat) :
    List ExtractionUnit × List String :=
  match entries with
  | .nil => ([], [])
  | .cons name isDir _ data rest =>
    if isDir then zip_extract_loop deeper rest archive_name nesting_level
    else
      let safe_filename := _sanitize_archive_filename name
      if safe_filename = "" then zip_extract_loop deeper rest archive_name nesting_level
      else if _is_system_file safe_filename then
        zip_extract_loop deeper rest archive_name nesting_level
      else
        let (res, ws) :=
          _process_extracted_file deeper data safe_filename (basenameOf safe_filename)
            archive_name nesting_level
        let (units', ws') := zip_extract_loop deeper rest archive_name nesting_level
        ((match res with | some us => us | none => []) ++ units',
         safe_filename :: (ws ++ ws'))

/-- `_extract_from_archive` (`app/extractors.py` lines 1320-1368).  The
nesting and container-size rejections precede the `try` block, so their
messages are unwrapped; every failure inside it is re-raised as
`"Error processing archive: ..."`.  The model's file universe contains
only zip containers and plain files, so the tar/rar/7z extractor branches
— structurally identical to the zip one and exercised by no claim — fail
exactly as the source does when handed bytes their library cannot open. -/
def _extract_from_archive (S : ArchiveSettings) (fuel : Nat) (content : VFile)
    (filename : String) (nesting_level : Nat) : ExtractResult :=
  if nesting_level ≥ S.MAX_ARCHIVE_NESTING then
    (.error "Maximum archive nesting level exceeded", [])
  else
    match fuel with
    | 0 => (.error "model artifact: depth budget exhausted", [])
    | fuel' + 1 =>
      if vfileLen content > S.MAX_ARCHIVE_SIZE then
        (.error "Archive size exceeds maximum allowed size", [])
      else
        match get_file_extension filename with
        | some e =>
          if e = "zip" then
            match content with
            | .zipArchive _ entries =>
              match zip_prescan S entries 0 with
              | some msg => (.error ("Error processing archive: " ++ msg), [])
              | none =>
                let (units, writes) :=
                  zip_extract_loop (_extract_from_archive S fuel') entries
                    filename nesting_level
                (.ok units, writes)
            | .plain _ => (.error "Error processing archive: Invalid ZIP file", [])
          else
            (.error ("Error processing archive: cannot open as " ++ e), [])
        | none => (.error "Error processing archive: Unsupported archive format: None", [])

/-- `extract_text` (`app/extractors.py` lines 126-165), restricted to the
branches the claims exercise: archives enter `_extract_from_archive` at
nesting level 0; a supported plain file becomes a single unit whose `path`
is its own filename; an unsupported file fails.  (The advisory MIME check
logs but never blocks, and is not modelled.) -/
def extract_text (S : ArchiveSettings) (content : VFile) (filename : String) :
    Except String (List ExtractionUnit) × List String :=
  if is_archive_format filename then
    _extract_from_archive S S.MAX_ARCHIVE_NESTING content filename 0
  else if ¬ is_supported_format filename then
    (.error ("Unsupported file format: " ++ filename), [])
  else
    match get_file_extension filename with
    | none => (.error ("Could not determine file extension for: " ++ filename), [])
    | some extension =>
      let text := _extract_text_by_format (match content with
        | .plain data => data
        | .zipArchive _ _ => "") extension
      (.ok [{ filename := filename
              path := filename
              size := vfileLen content
              ftype := extension
              text := pyTrim text }], [])

mutual

/-- Modelled from the spec: the tree-wide declared-size total — the sum of
declared member sizes over the outer archive and every nested archive in the
tree.  The spec asserts this quantity is what the extracted-size ledger
bounds; the comparison definition exists to state that claim against the
code. -/
def treeDeclaredSum : VFile → Nat
  | .plain _ => 0
  | .zipArchive _ entries => treeDeclaredSumEntries entries

/-- Entry-list part of `treeDeclaredSum`. -/
def treeDeclaredSumEntries : ZEntries → Nat
  | .nil => 0
  | .cons _ isDir declaredSize data rest =>
    (if isDir then 0 else declaredSize) + treeDeclaredSum data +
      treeDeclaredSumEntries rest

end

/-! ## `run_subprocess_with_limits` (`app/utils.py` lines 340-424)

The child process is modelled by its observable outcome.  Python's
`subprocess.run` reports a child killed by signal `s` through
`returncode = -s` on the `CompletedProcess`, and raises
`CalledProcessError` only when the caller passed `check=True`; without
`check` a non-zero return code is returned, not raised.  A shell wrapper
that reports a SIGKILLed child conventionally exits with code 137. -/

inductive ChildOutcome : Type where
  /-- The child exited (or was killed): the Python-level `returncode`
  (negative for a signal kill, e.g. `-9` for SIGKILL). -/
  | exited (returncode : Int) : ChildOutcome
  /-- The wall-clock timeout fired before the child exited. -/
  | timedOut : ChildOutcome
deriving DecidableEq, Repr

inductive RunResult : Type where
  /-- A `CompletedProcess` was returned to the caller. -/
  | completed (returncode : Int) : RunResult
  /-- `subprocess.TimeoutExpired` propagated. -/
  | timeoutExpired : RunResult
  /-- `subprocess.CalledProcessError` propagated. -/
  | calledProcessError (returncode : Int) : RunResult
  /-- `MemoryError` raised by the executor. -/
  | memoryError : RunResult
deriving DecidableEq, Repr

/-- Model of `subprocess.run`: raise on timeout; raise `CalledProcessError`
on a non-zero return code only when `check=True`; otherwise return the
completed process. -/
def subprocessRun (check : Bool) (outcome : ChildOutcome) : RunResult :=
  match outcome with
  | .timedOut => .timeoutExpired
  | .exited code => if check ∧ code ≠ 0 then .calledProcessError code else .completed code

/-- `run_subprocess_with_limits` from `app/utils.py`: with limits disabled
it is a plain `subprocess.run`; with limits enabled it re-raises
`TimeoutExpired`, and intercepts `CalledProcessError` to raise `MemoryError`
when `returncode == 137` (re-raising otherwise).  The `check` flag reaches
`subprocess.run` through `**kwargs`; none of the three call sites in
`app/extractors.py` (LibreOffice doc/ppt conversion, Tesseract OCR) passes
it. -/
def run_subprocess_with_limits (enableResourceLimits : Bool) (check : Bool)
    (outcome : ChildOutcome) : RunResult :=
  if ¬ enableResourceLimits then subprocessRun check outcome
  else
    match subprocessRun check outcome with
    | .timeoutExpired => .timeoutExpired
    | .calledProcessError code =>
      if code = 137 then .memoryError else .calledProcessError code
    | r => r

/-! ## `_safe_scroll_for_lazy_loading` (`app/extractors.py` lines 1829-1892)

The page is modelled by the sequence of heights successive
`document.body.scrollHeight` evaluations report: `heights 0` is the initial
read before the loop, `heights k` the read inside iteration `k`. -/

/-- The scroll loop body.  `fuel` counts the iterations the
`while scroll_attempts < max_scroll_attempts` guard still admits; the result
is the number of loop iterations executed.  Inside an iteration: read the
new height; if unchanged, bump the stability counter and stop once it
reaches 2; otherwise reset it and remember the new height; finally stop if
the height exceeds ten times the initial height. -/
def scroll_loop_go (heights : Nat → Nat) (initial_height : Nat) :
    Nat → Nat → Nat → Nat → Nat
  | 0, _, _, _ => 0
  | fuel + 1, idx, last_height, stable_count =>
    let new_height := heights idx
    if new_height = last_height then
      if stable_count + 1 ≥ 2 then 1
      else if new_height > initial_height * 10 then 1
      else 1 + scroll_loop_go heights initial_height fuel (idx + 1) last_height
        (stable_count + 1)
    else
      if new_height > initial_height * 10 then 1
      else 1 + scroll_loop_go heights initial_height fuel (idx + 1) new_height 0

/-- Number of scroll iterations `_safe_scroll_for_lazy_loading` performs on
a page with height trace `heights`, given `max_scroll_attempts`. -/
def scroll_iterations (heights : Nat → Nat) (max_scroll_attempts : Nat) : Nat :=
  scroll_loop_go heights (heights 0) max_scroll_attempts 1 (heights 0) 0

/-- Modelled from the spec: the stop condition of the scroll loop at
iteration `k` — the height is unchanged for two consecutive iterations
(`heights k = heights (k-1) = heights (k-2)`, possible only from the second
iteration on), or the height exceeds ten times its initial value. -/
def scrollStopCond (heights : Nat → Nat) (k : Nat) : Bool :=
  (decide (2 ≤ k) && (heights (k - 1) == heights (k - 2)) &&
    (heights k == heights (k - 1))) ||
  decide (heights k > heights 0 * 10)

/-- Modelled from the spec: iterate from read index `idx` and stop at the
first index satisfying `scrollStopCond`, capped at `fuel` iterations;
returns the number of iterations consumed. -/
def firstStopFrom (heights : Nat → Nat) : Nat → Nat → Nat
  | 0, _ => 0
  | fuel + 1, idx =>
    if scrollStopCond heights idx then 1 else 1 + firstStopFrom heights fuel (idx + 1)

/-! ## `_is_safe_url` (`app/extractors.py` lines 2307-2390)

IP addresses are modelled by their numeric value (IPv4 as four octets, IPv6
as a 128-bit value); the classification properties of Python's `ipaddress`
module (`is_loopback`, `is_link_local`, `is_private`) are modelled by the
standard special-purpose networks they test.  DNS resolution
(`socket.getaddrinfo`) is an oracle: a list of resolved addresses (`none`
for a returned string `ipaddress.ip_address` cannot parse, which the source
skips), a `socket.gaierror`, or any other internal exception — the latter
lands in the function's outer `except`, which fails closed. -/

inductive IPAddr : Type where
  | v4 (a b c d : Nat) : IPAddr
  | v6 (n : Nat) : IPAddr
deriving DecidableEq, Repr

/-- `ipaddress. ... .is_loopback`: `127.0.0.0/8`, `::1`. -/
def ipIsLoopback : IPAddr → Bool
  | .v4 a _ _ _ => a == 127
  | .v6 n => n == 1

/-- `ipaddress. ... .is_link_local`: `169.254.0.0/16`, `fe80::/10`. -/
def ipIsLinkLocal : IPAddr → Bool
  | .v4 a b _ _ => a == 169 && b == 254
  | .v6 n => n / 2 ^ 118 == 0x3fa

/-- `ipaddress. ... .is_private`: the IPv4 private networks of the Python
`ipaddress` module (`0.0.0.0/8`, `10.0.0.0/8`, `127.0.0.0/8`,
`169.254.0.0/16`, `172.16.0.0/12`, `192.0.0.0/29`, `192.0.0.170/31`,
`192.0.2.0/24`, `192.168.0.0/16`, `198.18.0.0/15`, `198.51.100.0/24`,
`203.0.113.0/24`, `240.0.0.0/4` with `255.255.255.255/32`) and its principal
IPv6 ones (`::/128`, `::1/128`, `::ffff:0:0/96`, `100::/64`, `2001::/23`,
`fc00::/7`, `fe80::/10`). -/
def ipIsPrivate : IPAddr → Bool
  | .v4 a b c d =>
    a == 0 || a == 10 || a == 127 || (a == 169 && b == 254) ||
    (a == 172 && decide (16 ≤ b) && decide (b ≤ 31)) ||
    (a == 192 && b == 0 && c == 0 && decide (d ≤ 7)) ||
    (a == 192 && b == 0 && c == 0 && (d == 170 || d == 171)) ||
    (a == 192 && b == 0 && c == 2) ||
    (a == 192 && b == 168) ||
    (a == 198 && (b == 18 || b == 19)) ||
    (a == 198 && b == 51 && c == 100) ||
    (a == 203 && b == 0 && c == 113) ||
    decide (240 ≤ a)
  | .v6 n =>
    n == 0 || n == 1 || n / 2 ^ 32 == 0xffff ||
    n / 2 ^ 64 == 0x0100000000000000 ||
    n / 2 ^ 105 == 0x100080 ||
    n / 2 ^ 121 == 0x7e ||
    n / 2 ^ 118 == 0x3fa

/-- The numeric value of an address (IPv4 as a 32-bit value). -/
def ipValue : IPAddr → Nat
  | .v4 a b c d => ((a * 256 + b) * 256 + c) * 256 + d
  | .v6 n => n

/-- A parsed `ipaddress.ip_network`: family, network value, and mask length
(32-bit space for IPv4, 128-bit for IPv6). -/
structure IPNetwork where
  isV6 : Bool
  addr : Nat
  maskLen : Nat
deriving DecidableEq, Repr

/-- `ip_obj in network`: `False` across families, otherwise equality of the
masked upper bits. -/
def ipInNetwork (ip : IPAddr) (net : IPNetwork) : Bool :=
  match ip with
  | .v4 _ _ _ _ =>
    !net.isV6 && (ipValue ip / 2 ^ (32 - net.maskLen) == net.addr / 2 ^ (32 - net.maskLen))
  | .v6 n => net.isV6 && (n / 2 ^ (128 - net.maskLen) == net.addr / 2 ^ (128 - net.maskLen))

/-- One entry of `BLOCKED_IP_RANGES.split(',')` after the source's
`ipaddress.ip_network(range_str.strip(), strict=False)` parse: a blank entry
is skipped by the `if not range_str` guard, an unparsable one by the
`except ValueError` handler, and a valid one is matched against. -/
inductive RangeEntry : Type where
  | blank : RangeEntry
  | invalid : RangeEntry
  | valid (net : IPNetwork) : RangeEntry
deriving DecidableEq, Repr

/-- What `socket.getaddrinfo(hostname, ...)` produced inside the `try`:
the resolved addresses (each `none` if `ipaddress.ip_address` then fails on
it), a `socket.gaierror`, or any other exception, which escapes to the outer
fail-closed handler. -/
inductive DNSResult : Type where
  | resolved (ips : List (Option IPAddr)) : DNSResult
  | gaierror : DNSResult
  | internalError : DNSResult
deriving DecidableEq, Repr

/-- The network-facing `Settings` fields: `BLOCKED_HOSTNAMES` as the
comma-separated configuration string the source splits, and
`BLOCKED_IP_RANGES` after per-entry parsing. -/
structure NetSettings where
  BLOCKED_HOSTNAMES : String
  BLOCKED_IP_RANGES : List RangeEntry
deriving Repr

/-- `urlparse(url)` as far as `_is_safe_url` consults it. -/
structure PUrl where
  scheme : String
  hostname : Option String
deriving DecidableEq, Repr

/-- The hostname-blocklist loop: each comma-separated entry is stripped and
lowered, blank entries are skipped, and the lowered hostname is compared for
equality. -/
def hostnameBlocked (blockedCSV : String) (hostname : String) : Bool :=
  (strSplitOnChar ',' blockedCSV).any fun b =>
    let b' := pyLower (pyTrim b)
    !(b' == "") && (pyLower hostname == b')

/-- The configured-ranges loop: the address falls in some valid entry of
`BLOCKED_IP_RANGES` (blank and unparsable entries are skipped). -/
def inBlockedRanges (ranges : List RangeEntry) (ip : IPAddr) : Bool :=
  ranges.any (fun r => match r with
    | .valid net => ipInNetwork ip net
    | _ => false)

/-- The source's Docker-bridge-gateway test: IPv4 `172.(16..31).0.1`. -/
def isDockerBridgeGateway : IPAddr → Bool
  | .v4 a b c d => a == 172 && decide (16 ≤ b) && decide (b ≤ 31) && c == 0 && d == 1
  | .v6 _ => false

/-- The per-address body of the validation loop: special-address check,
configured ranges, metadata service, Docker bridge gateway.  Returns `true`
when the address passes. -/
def ipPasses (ranges : List RangeEntry) (ip : IPAddr) : Bool :=
  if ipIsLoopback ip || ipIsPrivate ip || ipIsLinkLocal ip then false
  else if inBlockedRanges ranges ip then false
  else if ip == .v4 169 254 169 254 then false
  else !isDockerBridgeGateway ip

/-- The disjunction of per-address rejection causes named by the spec:
loopback, link-local, private range, configured blocked CIDR, the cloud
metadata address, or a Docker bridge gateway. -/
def badAddress (ranges : List RangeEntry) (ip : IPAddr) : Bool :=
  ipIsLoopback ip || ipIsLinkLocal ip || ipIsPrivate ip ||
  inBlockedRanges ranges ip || (ip == .v4 169 254 169 254) ||
  isDockerBridgeGateway ip

/-- The loop over all resolved addresses: return `False` at the first
failing address, skip unparsable ones, succeed after the last. -/
def ipsPass (ranges : List RangeEntry) : List (Option IPAddr) → Bool
  | [] => true
  | none :: rest => ipsPass ranges rest
  | some ip :: rest => ipPasses ranges ip && ipsPass ranges rest

/-- `_is_safe_url` from `app/extractors.py`: scheme gate, hostname presence,
hostname blocklist, DNS resolution (failure rejects), and the per-address
loop; any internal error inside the `try` is caught and rejects
(fail-closed). -/
def _is_safe_url (S : NetSettings) (dns : String → DNSResult) (u : PUrl) : Bool :=
  if ¬ (u.scheme = "http" ∨ u.scheme = "https") then false
  else
    match u.hostname with
    | none => false
    | some hostname =>
      if hostnameBlocked S.BLOCKED_HOSTNAMES hostname then false
      else
        match dns hostname with
        | .gaierror => false
        | .internalError => false
        | .resolved ips => ipsPass S.BLOCKED_IP_RANGES ips

/-! ## `extract_from_url` (`app/extractors.py` lines 2162-2183) and its
fetch pipeline

A URL is scheme, host and path (query string folded into the path); the
network is an oracle mapping each URL to its response: a redirect
(`Location` target), content with a `Content-Type`, or a connection
failure.  The `requests` library, called with `allow_redirects=True` (the
defaulted `follow_redirects` option), itself connects to every URL along
the redirect chain — its internal cap is 30 hops — performing no safety
checks.  Each function returns the list of URLs a connection was opened
to, in order, alongside its result. -/

structure WUrl where
  scheme : String
  host : String
  path : String
deriving DecidableEq, Repr

/-- The URL as a string (as handed to `get_file_extension` by
`_is_html_content`). -/
def urlStr (u : WUrl) : String :=
  u.scheme ++ "://" ++ u.host ++ u.path

/-- The `urlparse` view of a model URL. -/
def toPUrl (u : WUrl) : PUrl :=
  { scheme := u.scheme, hostname := some u.host }

inductive UrlBehavior : Type where
  | redirect (target : WUrl) : UrlBehavior
  | content (content_type : String) : UrlBehavior
  | connFail : UrlBehavior
deriving DecidableEq, Repr

/-- Redirect following inside `requests` (`allow_redirects=True`): connect
to the URL; on a redirect response continue with the target, up to the
library's internal 30-hop cap.  Returns the connection list and either the
final `(content_type, final_url)` or the raised error. -/
def followChain (W : WUrl → UrlBehavior) :
    Nat → WUrl → List WUrl × Except String (String × WUrl)
  | 0, _ => ([], .error "Exceeded 30 redirects")
  | fuel + 1, u =>
    match W u with
    | .connFail => ([u], .error "connection error")
    | .content content_type => ([u], .ok (content_type, u))
    | .redirect target =>
      let (tr, r) := followChain W fuel target
      (u :: tr, r)

/-- `_determine_content_type` (`app/extractors.py` lines 1894-1982): a HEAD
request with `allow_redirects` follows the whole redirect chain inside
`requests` (exceeding the `max_redirects` option only logs a warning), and
returns the final `Content-Type` and URL.  The GET fallback traverses the
same chain with the same semantics, so it is not distinguished here; no hop
is passed through `_is_safe_url`. -/
def _determine_content_type (W : WUrl → UrlBehavior) (u : WUrl) :
    List WUrl × Except String (String × WUrl) :=
  followChain W 30 u

/-- `_is_html_content` (`app/extractors.py` lines 1984-2013): decide from
the `Content-Type`, falling back to the extension of the URL string with
its query stripped. -/
def _is_html_content (content_type : String) (url : String) : Bool :=
  if strContains content_type "text/html" || strContains content_type "application/xhtml"
  then true
  else if strContains content_type "text/plain" then
    match get_file_extension ((strSplitOnChar '?' url).headD "") with
    | some e => e == "html" || e == "htm"
    | none => false
  else if content_type == "" || strContains content_type "application/octet-stream" then
    match get_file_extension ((strSplitOnChar '?' url).headD "") with
    | some e => e == "html" || e == "htm"
    | none => true
  else false

/-- `extract_from_url` (`app/extractors.py` lines 2162-2183): validate the
requested URL once through `_is_safe_url`; probe the content type (the
probe follows redirects); then fetch the final URL as an HTML page
(`_extract_page_with_requests`, itself redirect-following) or download it
as a file (`_download_and_extract_file`, likewise) — with no further
validation anywhere past the first gate.  The result records which branch
ran; the first component is the connection trace. -/
def extract_from_url (S : NetSettings) (dns : String → DNSResult)
    (W : WUrl → UrlBehavior) (u : WUrl) : List WUrl × Except String String :=
  if ¬ _is_safe_url S dns (toPUrl u) then
    ([], .error "Access to internal IP addresses is prohibited for security reasons")
  else
    match _determine_content_type W u with
    | (tr, .error e) => (tr, .error ("Error processing URL: " ++ e))
    | (tr, .ok (content_type, final)) =>
      if _is_html_content content_type (urlStr final) then
        let (tr2, r) := followChain W 30 final
        (tr ++ tr2,
         match r with
         | .ok _ => .ok "html page extracted"
         | .error e => .error ("Error processing URL: " ++ e))
      else
        let (tr2, r) := followChain W 30 final
        (tr ++ tr2,
         match r with
         | .ok _ => .ok "file downloaded and extracted"
         | .error e => .error ("Error processing URL: " ++ e))

/-- The connections `extract_from_url` makes once the initial gate has
passed, as a function of the network alone: the full probe chain, then the
full fetch/download chain from the final URL.  No safety input occurs in
this definition. -/
def fullTrace (W : WUrl → UrlBehavior) (u : WUrl) : List WUrl :=
  match followChain W 30 u with
  | (tr, .error _) => tr
  | (tr, .ok (_, final)) => tr ++ (followChain W 30 final).1

/-! ## Concrete instances used to exercise the model -/

/-- The spec's end-to-end example: `nested.zip` containing
`inner.txt` with text `"world"`. -/
def exampleNested : VFile :=
  .zipArchive 130 (.cons "inner.txt" false 5 (.plain "world") .nil)

/-- The spec's end-to-end example: `outer.zip` containing `report.txt`
(`"hello"`) and `nested.zip`. -/
def exampleOuter : VFile :=
  .zipArchive 400
    (.cons "report.txt" false 5 (.plain "hello")
    (.cons "nested.zip" false 130 exampleNested .nil))

/-- A nested archive declaring a 60 MB member. -/
def ledgerNested : VFile :=
  .zipArchive 120 (.cons "big2.txt" false 60000000 (.plain "y") .nil)

/-- An outer archive declaring a 60 MB member of its own next to
`ledgerNested`: each archive's own declared total is below 100 MB, the
tree-wide total is not. -/
def ledgerEntries : ZEntries :=
  .cons "big.txt" false 60000000 (.plain "x")
    (.cons "nested.zip" false 120 ledgerNested .nil)

/-- The archive tree over `ledgerEntries`. -/
def ledgerOuter : VFile := .zipArchive 500 ledgerEntries

/-- The spec's rejection example: one entry declaring 10^9 uncompressed
bytes. -/
def bombEntries : ZEntries :=
  .cons "huge.bin" false 1000000000 (.plain "") .nil

/-- A zip containing only a supported text member whose name contains
`thumbs.db`. -/
def thumbsZip : VFile :=
  .zipArchive 60 (.cons "report_thumbs.db_v2.txt" false 1 (.plain "x") .nil)

/-- A page whose reported height grows on every scroll. -/
def growingHeights : Nat → Nat := fun k => 100 * (k + 1)

/-- Network settings with a hostname blocklist entry and the `10.0.0.0/8`
CIDR blocked. -/
def netS0 : NetSettings :=
  { BLOCKED_HOSTNAMES := "localhost,metadata.google.internal"
    BLOCKED_IP_RANGES := [.valid { isV6 := false, addr := ipValue (.v4 10 0 0 0), maskLen := 8 }] }

/-- A DNS oracle: the public host resolves to a routable address, the
internal host to `127.0.0.1`, everything else fails. -/
def dns0 : String → DNSResult := fun h =>
  if h = "public.example" then .resolved [some (.v4 93 184 216 34)]
  else if h = "internal.example" then .resolved [some (.v4 127 0 0 1)]
  else .gaierror

/-- The requested public URL. -/
def urlPub : WUrl := { scheme := "http", host := "public.example", path := "/start" }

/-- The internal redirect target. -/
def urlInt : WUrl := { scheme := "http", host := "internal.example", path := "/latest/meta-data" }

/-- A network where the public URL redirects to the internal one, which
serves an HTML page. -/
def net0 : WUrl → UrlBehavior := fun u =>
  if u = urlPub then .redirect urlInt
  else if u = urlInt then .content "text/html"
  else .connFail

/-! ## Helper lemmas -/

/-- The pre-scan accepts from running total `t` exactly when `t` plus the
declared total fits in `MAX_EXTRACTED_SIZE`. -/
theorem zip_prescan_none_iff (S : ArchiveSettings) :
    ∀ (entries : ZEntries) (t : Nat), t ≤ S.MAX_EXTRACTED_SIZE →
      (zip_prescan S entries t = none ↔
        t + zipDeclaredSum entries ≤ S.MAX_EXTRACTED_SIZE)
  | .nil, t, ht => by simpa [zip_prescan, zipDeclaredSum] using ht
  | .cons name isDir sz data rest, t, ht => by
    by_cases hd : isDir
    · simp [zip_prescan, zipDeclaredSum, hd, zip_prescan_none_iff S rest t ht]
    · simp only [zip_prescan, zipDeclaredSum, hd, if_false]
      by_cases hgt : t + sz > S.MAX_EXTRACTED_SIZE
      · simp [hgt]
        omega
      · have h2 : t + sz ≤ S.MAX_EXTRACTED_SIZE := by omega
        simp [hgt, zip_prescan_none_iff S rest (t + sz) h2]
        omega

/-- Definitional unfolding of `_extract_from_archive` (stated once because
the automatic unfold lemma generation does not handle the nested matches). -/
theorem _extract_from_archive_eq (S : ArchiveSettings) (fuel : Nat)
    (content : VFile) (filename : String) (nesting_level : Nat) :
    _extract_from_archive S fuel content filename nesting_level =
      if nesting_level ≥ S.MAX_ARCHIVE_NESTING then
        (.error "Maximum archive nesting level exceeded", [])
      else
        match fuel with
        | 0 => (.error "model artifact: depth budget exhausted", [])
        | fuel' + 1 =>
          if vfileLen content > S.MAX_ARCHIVE_SIZE then
            (.error "Archive size exceeds maximum allowed size", [])
          else
            match get_file_extension filename with
            | some e =>
              if e = "zip" then
                match content with
                | .zipArchive _ entries =>
                  match zip_prescan S entries 0 with
                  | some msg => (.error ("Error processing archive: " ++ msg), [])
                  | none =>
                    let (units, writes) :=
                      zip_extract_loop (_extract_from_archive S fuel') entries
                        filename nesting_level
                    (.ok units, writes)
                | .plain _ => (.error "Error processing archive: Invalid ZIP file", [])
              else
                (.error ("Error processing archive: cannot open as " ++ e), [])
            | none =>
              (.error "Error processing archive: Unsupported archive format: None", []) := by
  cases fuel <;> rfl

/-- The capped stop-search consumes at most its cap. -/
theorem firstStopFrom_le (heights : Nat → Nat) :
    ∀ (fuel idx : Nat), firstStopFrom heights fuel idx ≤ fuel
  | 0, _ => Nat.le_refl 0
  | fuel + 1, idx => by
    rw [firstStopFrom]
    split
    · omega
    · have := firstStopFrom_le heights fuel (idx + 1)
      omega

/-- The scroll loop body computes exactly the capped search for the first
stop condition, given the loop-state invariants: `last_height` is the
previous read, and `stable_count` is 1 precisely when the previous
iteration already saw an unchanged height. -/
theorem scroll_loop_go_spec (heights : Nat → Nat) :
    ∀ (fuel idx : Nat) (last_height stable_count : Nat),
      1 ≤ idx →
      last_height = heights (idx - 1) →
      stable_count = (if 2 ≤ idx ∧ heights (idx - 1) = heights (idx - 2) then 1 else 0) →
      scroll_loop_go heights (heights 0) fuel idx last_height stable_count =
        firstStopFrom heights fuel idx
  | 0, idx, last_height, stable_count, _, _, _ => rfl
  | fuel + 1, idx, last_height, stable_count, hidx, hlast, hstable => by
    have e1 : idx + 1 - 1 = idx := by omega
    have e2 : idx + 1 - 2 = idx - 1 := by omega
    subst hlast
    subst hstable
    simp only [scroll_loop_go, firstStopFrom]
    by_cases hEq : heights idx = heights (idx - 1)
    · rw [if_pos hEq]
      by_cases hst : 2 ≤ idx ∧ heights (idx - 1) = heights (idx - 2)
      · rw [if_pos hst]
        have hcond : scrollStopCond heights idx = true := by
          simp [scrollStopCond, hst.1, hst.2, hEq]
        rw [if_pos (by omega : 1 + 1 ≥ 2), if_pos hcond]
      · rw [if_neg hst]
        have hfirst : (decide (2 ≤ idx) && (heights (idx - 1) == heights (idx - 2)) &&
            (heights idx == heights (idx - 1))) = false := by
          rcases Decidable.em (2 ≤ idx) with h2 | h2
          · have hne : heights (idx - 1) ≠ heights (idx - 2) := fun he => hst ⟨h2, he⟩
            simp [hne]
          · simp [h2]
        rw [if_neg (by omega : ¬ 0 + 1 ≥ 2)]
        by_cases hg : heights idx > heights 0 * 10
        · have hcond : scrollStopCond heights idx = true := by
            simp [scrollStopCond, hg]
          rw [if_pos hg, if_pos hcond]
        · have hcond : scrollStopCond heights idx = false := by
            unfold scrollStopCond
            rw [hfirst]
            simp [hg]
          rw [if_neg hg, if_neg (by simp [hcond])]
          congr 1
          refine scroll_loop_go_spec heights fuel (idx + 1) (heights (idx - 1)) (0 + 1)
            (by omega) (by rw [e1]; exact hEq.symm) ?_
          rw [if_pos]
      
          rw [e1, e2]
          exact ⟨by omega, hEq⟩
    · rw [if_neg hEq]
      have hfirst : (decide (2 ≤ idx) && (heights (idx - 1) == heights (idx - 2)) &&
          (heights idx == heights (idx - 1))) = false := by
        simp [hEq]
      by_cases hg : heights idx > heights 0 * 10
      · have hcond : scrollStopCond heights idx = true := by
          simp [scrollStopCond, hg]
        rw [if_pos hg, if_pos hcond]
      · have hcond : scrollStopCond heights idx = false := by
          unfold scrollStopCond
          rw [hfirst]
          simp [hg]
        rw [if_neg hg, if_neg (by simp [hcond])]
        congr 1
        refine scroll_loop_go_spec heights fuel (idx + 1) (heights idx) 0
          (by omega) (by rw [e1]) ?_
        rw [if_neg]
        rw [e1, e2]
        rintro ⟨-, habs⟩
        exact hEq habs

/-- Decompose a true Boolean conjunction. -/
theorem bandE {a b : Bool} (h : (a && b) = true) : a = true ∧ b = true := by
  simpa using h

/-- Build a true Boolean conjunction. -/
theorem bandI {a b : Bool} (h₁ : a = true) (h₂ : b = true) : (a && b) = true := by
  simp [h₁, h₂]

/-- A first character other than `'.'` survives `replaceDD` in place. -/
theorem replaceDD_cons_head (d : Char) (hd : d ≠ '.') :
    ∀ (rest : List Char), (replaceDD (d :: rest)).head? = some d
  | [] => rfl
  | e :: rest' => by
    rw [replaceDD, if_neg (fun h => hd h.1)]
    rfl

/-- The output of `replaceDD` contains no two consecutive dots. -/
theorem replaceDD_noDD : ∀ (l : List Char), noDoubleDot (replaceDD l) = true
  | [] => rfl
  | [c] => rfl
  | c :: d :: rest => by
    rw [replaceDD]
    by_cases h : c = '.' ∧ d = '.'
    · rw [if_pos h]
      exact replaceDD_noDD rest
    · rw [if_neg h]
      have hrec := replaceDD_noDD (d :: rest)
      by_cases hc : c = '.'
      · have hd : d ≠ '.' := fun hdd => h ⟨hc, hdd⟩
        have hhead := replaceDD_cons_head d hd rest
        rcases hX : replaceDD (d :: rest) with _ | ⟨x, xs⟩
        · rfl
        · rw [hX] at hrec hhead
          have hx : x = d := by simpa using hhead
          show (!((c == '.') && (x == '.')) && noDoubleDot (x :: xs)) = true
          subst hx
          simp [hc, hd, hrec]
      · rcases hX : replaceDD (d :: rest) with _ | ⟨x, xs⟩
        · rfl
        · rw [hX] at hrec
          show (!((c == '.') && (x == '.')) && noDoubleDot (x :: xs)) = true
          simp [hc, hrec]

/-- Backslash-to-slash mapping never creates a dot. -/
theorem noDD_map_backslash :
    ∀ (l : List Char), noDoubleDot l = true →
      noDoubleDot (l.map (fun c => if c = '\\' then '/' else c)) = true
  | [], _ => rfl
  | [_], _ => rfl
  | c :: d :: rest, h => by
    have hdot : ∀ x : Char, ((if x = '\\' then '/' else x) == '.') = (x == '.') := by
      intro x
      by_cases hx : x = '\\'
      · subst hx
        decide
      · simp [hx]
    have hparts := bandE h
    show (!(((if c = '\\' then '/' else c) == '.') &&
        ((if d = '\\' then '/' else d) == '.')) &&
      noDoubleDot ((d :: rest).map (fun c => if c = '\\' then '/' else c))) = true
    rw [hdot c, hdot d]
    exact bandI hparts.1 (noDD_map_backslash (d :: rest) hparts.2)

/-- Tails of a dot-free concatenation are dot-free. -/
theorem noDD_append_right :
    ∀ (l₁ l₂ : List Char), noDoubleDot (l₁ ++ l₂) = true → noDoubleDot l₂ = true
  | [], _, h => h
  | [c], l₂, h => by
    cases l₂ with
    | nil => rfl
    | cons d t => exact (bandE h).2
  | c :: c' :: l₁', l₂, h =>
    noDD_append_right (c' :: l₁') l₂ (bandE h).2

/-- Heads of a dot-free concatenation are dot-free. -/
theorem noDD_append_left :
    ∀ (l₁ l₂ : List Char), noDoubleDot (l₁ ++ l₂) = true → noDoubleDot l₁ = true
  | [], _, _ => rfl
  | [_], _, _ => rfl
  | c :: c' :: l₁', l₂, h => by
    have hparts := bandE h
    exact bandI hparts.1 (noDD_append_left (c' :: l₁') l₂ hparts.2)

/-- Contiguous fragments of a dot-free list are dot-free. -/
theorem noDD_of_fragment (l₁ l₂ : List Char) (hinf : l₁ <:+: l₂)
    (h : noDoubleDot l₂ = true) : noDoubleDot l₁ = true := by
  obtain ⟨s, t, rfl⟩ := hinf
  rw [List.append_assoc] at h
  exact noDD_append_left _ t (noDD_append_right s _ h)

/-- `stripSlashes` yields a contiguous fragment of its input. -/
theorem stripSlashes_fragment (l : List Char) : stripSlashes l <:+: l := by
  unfold stripSlashes
  have h1 : l.dropWhile (· = '/') <:+ l := List.dropWhile_suffix _
  have h2 : (l.dropWhile (· = '/')).reverse.dropWhile (· = '/') <:+
      (l.dropWhile (· = '/')).reverse := List.dropWhile_suffix _
  have h3 : ((l.dropWhile (· = '/')).reverse.dropWhile (· = '/')).reverse <+:
      l.dropWhile (· = '/') := by
    refine List.reverse_suffix.mp ?_
    simpa using h2
  exact h3.isInfix.trans h1.isInfix

/-- `splitOnChar` always yields at least one piece. -/
theorem splitOnChar_ne_nil (sep : Char) :
    ∀ (l : List Char), splitOnChar sep l ≠ []
  | [] => by simp [splitOnChar]
  | c :: rest => by
    rw [splitOnChar]
    split
    · simp
    · split <;> simp

/-- The first piece of `splitOnChar` starts its input. -/
theorem splitOnChar_head_prefix (sep : Char) :
    ∀ (l : List Char), (splitOnChar sep l).headD [] <+: l
  | [] => by simp [splitOnChar]
  | c :: rest => by
    rw [splitOnChar]
    by_cases hc : c = sep
    · rw [if_pos hc]
      simp
    · rw [if_neg hc]
      rcases hs : splitOnChar sep rest with _ | ⟨seg, segs⟩
      · exact absurd hs (splitOnChar_ne_nil sep rest)
      · have hpre := splitOnChar_head_prefix sep rest
        rw [hs, List.headD_cons] at hpre
        rw [List.headD_cons]
        exact List.cons_prefix_cons.mpr ⟨rfl, hpre⟩

/-- Every piece of `splitOnChar` is a contiguous fragment of the input. -/
theorem mem_splitOnChar_fragment (sep : Char) :
    ∀ (l : List Char) (p : List Char), p ∈ splitOnChar sep l → p <:+: l
  | [], p, hp => by
    simp [splitOnChar] at hp
    subst hp
    exact List.nil_infix
  | c :: rest, p, hp => by
    rw [splitOnChar] at hp
    by_cases hc : c = sep
    · rw [if_pos hc] at hp
      rcases List.mem_cons.mp hp with rfl | hp'
      · exact List.nil_infix
      · exact List.infix_cons (mem_splitOnChar_fragment sep rest p hp')
    · rw [if_neg hc] at hp
      rcases hs : splitOnChar sep rest with _ | ⟨seg, segs⟩
      · exact absurd hs (splitOnChar_ne_nil sep rest)
      · rw [hs] at hp
        rcases List.mem_cons.mp hp with rfl | hp'
        · have hpre := splitOnChar_head_prefix sep rest
          rw [hs, List.headD_cons] at hpre
          exact (List.cons_prefix_cons.mpr ⟨rfl, hpre⟩).isInfix
        · have hmem : p ∈ splitOnChar sep rest := by
            rw [hs]
            exact List.mem_cons_of_mem _ hp'
          exact List.infix_cons (mem_splitOnChar_fragment sep rest p hmem)

/-- No piece of `splitOnChar` contains the separator. -/
theorem mem_splitOnChar_sep_not_mem (sep : Char) :
    ∀ (l : List Char) (p : List Char), p ∈ splitOnChar sep l → sep ∉ p
  | [], p, hp => by
    simp [splitOnChar] at hp
    subst hp
    simp
  | c :: rest, p, hp => by
    rw [splitOnChar] at hp
    by_cases hc : c = sep
    · rw [if_pos hc] at hp
      rcases List.mem_cons.mp hp with rfl | hp'
      · simp
      · exact mem_splitOnChar_sep_not_mem sep rest p hp'
    · rw [if_neg hc] at hp
      rcases hs : splitOnChar sep rest with _ | ⟨seg, segs⟩
      · exact absurd hs (splitOnChar_ne_nil sep rest)
      · rw [hs] at hp
        rcases List.mem_cons.mp hp with rfl | hp'
        · intro hmem
          rcases List.mem_cons.mp hmem with heq | hmem'
          · exact hc heq.symm
          · have hseg : seg ∈ splitOnChar sep rest := by
              rw [hs]
              exact List.mem_cons_self seg segs
            exact mem_splitOnChar_sep_not_mem sep rest seg hseg hmem'
        · have hmem : p ∈ splitOnChar sep rest := by
            rw [hs]
            exact List.mem_cons_of_mem _ hp'
          exact mem_splitOnChar_sep_not_mem sep rest p hmem

/-- The segment-level guarantees of the sanitizer: every surviving segment
is nonempty, is not `"."`, contains no slash (so it names one path
component), no backslash, and no `".."` occurrence. -/
theorem sanitizeSegs_spec (s : String) (p : List Char) (hp : p ∈ sanitizeSegs s) :
    p ≠ [] ∧ p ≠ ['.'] ∧ '/' ∉ p ∧ '\\' ∉ p ∧ noDoubleDot p = true := by
  simp only [sanitizeSegs] at hp
  obtain ⟨hpmem, hfilter⟩ := List.mem_filter.mp hp
  have hparts := bandE hfilter
  have hne : p ≠ [] := by simpa using hparts.1
  have hnd : p ≠ ['.'] := by simpa using hparts.2
  set l1 := (replaceDD s.data).map (fun c => if c = '\\' then '/' else c) with hl1
  set l2 := stripSlashes l1 with hl2
  set l3 := (if l2.head? = some '/' then l2.drop 1 else l2) with hl3
  have hl3inf : l3 <:+: l1 := by
    rw [hl3]
    split
    · exact ((List.drop_suffix 1 l2).isInfix).trans (stripSlashes_fragment l1)
    · exact stripSlashes_fragment l1
  have hpinf : p <:+: l1 := (mem_splitOnChar_fragment '/' l3 p hpmem).trans hl3inf
  have hl1nDD : noDoubleDot l1 = true := noDD_map_backslash _ (replaceDD_noDD s.data)
  have hl1bs : '\\' ∉ l1 := by
    rw [hl1]
    simp only [List.mem_map, not_exists]
    rintro a ⟨-, habs⟩
    by_cases ha : a = '\\' <;> simp [ha] at habs
  refine ⟨hne, hnd, mem_splitOnChar_sep_not_mem '/' l3 p hpmem,
    fun hbs => hl1bs (hpinf.subset hbs), noDD_of_fragment p l1 hpinf hl1nDD⟩

/-- The sanitized name never starts with a slash. -/
theorem sanitize_no_leading_slash (s : String) :
    (_sanitize_archive_filename s).data.head? ≠ some '/' := by
  rw [_sanitize_archive_filename]
  split
  · simp
  · simp only []
    split
    · simp
    · rename_i hs hparts
      rcases hsegs : sanitizeSegs s with _ | ⟨p₀, ps⟩
      · rw [hsegs] at hparts
        simp at hparts
      · have hp₀ : p₀ ∈ sanitizeSegs s := by
          rw [hsegs]
          exact List.mem_cons_self p₀ ps
        obtain ⟨hne, -, hslash, -, -⟩ := sanitizeSegs_spec s p₀ hp₀
        obtain ⟨c, p₀', rfl⟩ := List.exists_cons_of_ne_nil hne
        have hc : c ≠ '/' := fun h => hslash (h ▸ List.mem_cons_self c p₀')
        cases ps with
        | nil => simpa [List.intercalate] using hc
        | cons q qs =>
          simpa [List.intercalate, List.intersperse_cons_cons] using hc

/-! ## Claim theorems -/

/-- C4: the claim says a child killed for exceeding its memory ceiling
(SIGKILL, exit code 137) is mapped by `run_subprocess_with_limits` to the
distinct `MemoryError` outcome.  The code disagrees: `subprocess.run`
raises `CalledProcessError` — the only exception the 137 test inspects —
only under `check=True`, which no call site passes; and a SIGKILLed child
reports `returncode = -9` anyway.  So with the call sites' `check=False`
(first two conjuncts: the two ways a memory kill can surface), the result
is an ordinary completed process, and `MemoryError` is unreachable (third
conjunct); the mapping fires only for `check=True` with a literal 137
(fourth conjunct).  This contradicts the function's own docstring
("Raises ... MemoryError") and the dead `except MemoryError` handlers at
its three call sites. -/
theorem c4_memory_kill_not_distinguished :
    run_subprocess_with_limits true false (.exited (-9)) = .completed (-9) ∧
    run_subprocess_with_limits true false (.exited 137) = .completed 137 ∧
    (∀ enableLimits outcome,
      run_subprocess_with_limits enableLimits false outcome ≠ .memoryError) ∧
    run_subprocess_with_limits true true (.exited 137) = .memoryError := by
  refine ⟨by decide, by decide, ?_, by decide⟩
  intro enableLimits outcome
  cases outcome with
  | timedOut =>
    by_cases hel : enableLimits <;>
      simp [run_subprocess_with_limits, subprocessRun, hel]
  | exited code =>
    by_cases hel : enableLimits <;>
      simp [run_subprocess_with_limits, subprocessRun, hel]

/-- C6: a zip archive whose declared member sizes sum to more than
`MAX_EXTRACTED_SIZE` always fails with a policy-violation error carrying no
extraction units, and with an empty member-write trace — the pre-scan
rejects before any extracted byte reaches disk.  (The temporary copy of the
≤ `MAX_ARCHIVE_SIZE` container itself, made before the archive is opened,
is not a member write.) -/
theorem c6_zip_bomb_rejected_before_write (S : ArchiveSettings) (fuel : Nat)
    (containerSize : Nat) (entries : ZEntries) (filename : String)
    (nesting_level : Nat)
    (h : zipDeclaredSum entries > S.MAX_EXTRACTED_SIZE) :
    ∃ msg, _extract_from_archive S fuel (.zipArchive containerSize entries)
      filename nesting_level = (.error msg, []) := by
  obtain ⟨msg, hmsg⟩ : ∃ msg, zip_prescan S entries 0 = some msg := by
    rcases hopt : zip_prescan S entries 0 with _ | msg
    · rw [zip_prescan_none_iff S entries 0 (Nat.zero_le _)] at hopt
      omega
    · exact ⟨msg, rfl⟩
  rw [_extract_from_archive_eq]
  split
  · exact ⟨_, rfl⟩
  · match fuel with
    | 0 => exact ⟨_, rfl⟩
    | fuel' + 1 =>
      simp only []
      by_cases hvs : vfileLen (VFile.zipArchive containerSize entries) > S.MAX_ARCHIVE_SIZE
      · rw [if_pos hvs]
        exact ⟨_, rfl⟩
      · rw [if_neg hvs]
        rcases hext : get_file_extension filename with _ | e
        · exact ⟨_, rfl⟩
        · simp only []
          by_cases he : e = "zip"
          · subst he
            simp only [if_pos rfl, hmsg]
            exact ⟨_, rfl⟩
          · rw [if_neg he]
            exact ⟨_, rfl⟩

/-- C6 witness: the spec's rejection example — one entry declaring 10^9
uncompressed bytes against the default `MAX_EXTRACTED_SIZE = 104857600`. -/
theorem c6_zip_bomb_rejected_before_write_witness :
    zipDeclaredSum bombEntries > defaultSettings.MAX_EXTRACTED_SIZE ∧
    ∃ msg, extract_text defaultSettings (.zipArchive 1000 bombEntries) "bomb.zip" =
      (.error msg, []) :=
  ⟨by decide,
   c6_zip_bomb_rejected_before_write defaultSettings
     defaultSettings.MAX_ARCHIVE_NESTING 1000 bombEntries "bomb.zip" 0 (by decide)⟩

/-- C7: with nesting depth counted as the number of enclosing archive
containers (depth = `nesting_level + 1`; the spec states the same bound as
the invariant `nesting_level < MAX_NESTING`), extraction at depth greater
than `MAX_ARCHIVE_NESTING` always fails with the policy-violation message,
and at depth at most `MAX_ARCHIVE_NESTING` the nesting gate passes and a
zip archive within the size policy extracts successfully. -/
theorem c7_nesting_depth_policy (S : ArchiveSettings) (fuel : Nat)
    (content : VFile) (filename : String) (nesting_level : Nat) :
    (S.MAX_ARCHIVE_NESTING < nesting_level + 1 →
      _extract_from_archive S fuel content filename nesting_level =
        (.error "Maximum archive nesting level exceeded", [])) ∧
    (nesting_level + 1 ≤ S.MAX_ARCHIVE_NESTING →
      S.MAX_ARCHIVE_NESTING - nesting_level ≤ fuel →
      ∀ containerSize entries, content = .zipArchive containerSize entries →
        get_file_extension filename = some "zip" →
        containerSize ≤ S.MAX_ARCHIVE_SIZE →
        zipDeclaredSum entries ≤ S.MAX_EXTRACTED_SIZE →
        ∃ units writes, _extract_from_archive S fuel content filename nesting_level =
          (.ok units, writes)) := by
  constructor
  · intro hdeep
    rw [_extract_from_archive_eq]
    rw [if_pos (by omega)]
  · intro hdepth hfuel containerSize entries hc hext hcs hsum
    subst hc
    match fuel with
    | 0 => omega
    | fuel' + 1 =>
      have hsum0 : zip_prescan S entries 0 = none :=
        (zip_prescan_none_iff S entries 0 (Nat.zero_le _)).mpr (by omega)
      rcases hz : zip_extract_loop (_extract_from_archive S fuel') entries
        filename nesting_level with ⟨us, ws⟩
      refine ⟨us, ws, ?_⟩
      rw [_extract_from_archive_eq]
      rw [if_neg (by omega)]
      simp only [vfileLen, hext, hsum0, hz]
      rw [if_neg (by omega)]
      simp

/-- C7 witness: with the default `MAX_ARCHIVE_NESTING = 3`, extraction of a
zip at `nesting_level = 3` (depth 4) fails with the nesting policy error,
and at `nesting_level = 2` (depth 3) the example nested zip extracts. -/
theorem c7_nesting_depth_policy_witness :
    _extract_from_archive defaultSettings 3 exampleNested "nested.zip" 3 =
      (.error "Maximum archive nesting level exceeded", []) ∧
    ∃ units writes, _extract_from_archive defaultSettings 3 exampleNested
      "nested.zip" 2 = (.ok units, writes) :=
  ⟨(c7_nesting_depth_policy defaultSettings 3 exampleNested "nested.zip" 3).1
     (by decide),
   (c7_nesting_depth_policy defaultSettings 3 exampleNested "nested.zip" 2).2
     (by decide) (by decide) 130 _ rfl (by decide) (by decide) (by decide)⟩

/-- C1 counterexample: the claim says every redirect hop followed while
probing, fetching or downloading is re-validated, and a redirect from a
public host to an internal address such as `127.0.0.1` is rejected at that
hop before any connection to it.  The code disagrees: `extract_from_url`
validates only the requested URL, then lets `requests` follow redirects
freely — here a public URL that passes the initial check redirects to a
host resolving to `127.0.0.1`, which fails `_is_safe_url`, yet a connection
to it is opened (it appears in the connection trace). -/
theorem c1_counterexample :
    _is_safe_url netS0 dns0 (toPUrl urlPub) = true ∧
    _is_safe_url netS0 dns0 (toPUrl urlInt) = false ∧
    urlInt ∈ (extract_from_url netS0 dns0 net0 urlPub).1 :=
  ⟨by decide, by decide, by decide⟩

/-- C1 amended: only the initially requested URL passes through
Resolve/Validate — an unsafe initial URL is rejected with no connection
opened, but once the initial gate passes, the set of URLs connected to is
`fullTrace`, a function of the network behaviour alone: every redirect hop
of the probe and of the subsequent page fetch or file download is connected
to without re-validation, so a redirect from a public host to an internal
address such as `127.0.0.1` is connected to rather than rejected.
(Embedded image URLs, not part of this pipeline, are separately validated
by the source.) -/
theorem c1_redirect_hops_not_revalidated (S : NetSettings)
    (dns : String → DNSResult) (W : WUrl → UrlBehavior) (u : WUrl) :
    (_is_safe_url S dns (toPUrl u) = false →
      extract_from_url S dns W u =
        ([], .error "Access to internal IP addresses is prohibited for security reasons")) ∧
    (_is_safe_url S dns (toPUrl u) = true →
      (extract_from_url S dns W u).1 = fullTrace W u) := by
  constructor
  · intro h
    rw [extract_from_url, if_pos (by simp [h])]
  · intro h
    rw [extract_from_url, if_neg (by simp [h]), fullTrace]
    unfold _determine_content_type
    rcases hfc : followChain W 30 u with ⟨tr, r⟩
    rcases r with e | ⟨ct, final⟩
    · simp
    · rcases hfc2 : followChain W 30 final with ⟨tr2, r2⟩
      by_cases hhtml : _is_html_content ct (urlStr final)
      · rcases r2 with e2 | ok2 <;> simp [hhtml, hfc2]
      · rcases r2 with e2 | ok2 <;> simp [hhtml, hfc2]

/-- C1 amended witness: for the concrete redirecting network, the
initially-safe URL's connection trace is exactly `fullTrace` — the probe
chain through the internal host plus the fetch of the final URL. -/
theorem c1_redirect_hops_not_revalidated_witness :
    (extract_from_url netS0 dns0 net0 urlPub).1 = fullTrace net0 urlPub :=
  (c1_redirect_hops_not_revalidated netS0 dns0 net0 urlPub).2 (by decide)

/-- Any rejection cause forces the per-address check to fail. -/
theorem ipPasses_eq_false_of_bad (ranges : List RangeEntry) (ip : IPAddr)
    (h : badAddress ranges ip = true) : ipPasses ranges ip = false := by
  unfold badAddress at h
  unfold ipPasses
  simp only [Bool.or_eq_true] at h
  rcases h with ((((h | h) | h) | h) | h) | h <;> simp [h]

/-- The loop over resolved addresses fails as soon as it contains a failing
parsed address. -/
theorem ipsPass_eq_false_of_mem (ranges : List RangeEntry) :
    ∀ (ips : List (Option IPAddr)) (ip : IPAddr), some ip ∈ ips →
      ipPasses ranges ip = false → ipsPass ranges ips = false := by
  intro ips
  induction ips with
  | nil => intro ip hmem; cases hmem
  | cons o rest ih =>
    intro ip hmem hbad
    rcases List.mem_cons.mp hmem with heq | hmem'
    · rw [← heq, ipsPass, hbad, Bool.false_and]
    · cases o with
      | none => rw [ipsPass]; exact ih ip hmem' hbad
      | some jp => rw [ipsPass, ih ip hmem' hbad, Bool.and_false]

/-- C2: `_is_safe_url` returns `false` — before any outbound content
connection, see C1's theorem for the connection side — whenever the scheme
is not http(s), the hostname matches the configured blocklist, DNS
resolution fails, any resolved address of either family is loopback,
link-local, private, inside a configured blocked CIDR, the metadata address
`169.254.169.254`, or a Docker bridge gateway, or an internal error occurs
during validation (fail-closed). -/
theorem c2_is_safe_url_rejects (S : NetSettings) (dns : String → DNSResult)
    (u : PUrl) :
    (¬ (u.scheme = "http" ∨ u.scheme = "https") → _is_safe_url S dns u = false) ∧
    (∀ h, u.hostname = some h → hostnameBlocked S.BLOCKED_HOSTNAMES h = true →
      _is_safe_url S dns u = false) ∧
    (∀ h, u.hostname = some h → dns h = .gaierror → _is_safe_url S dns u = false) ∧
    (∀ h, u.hostname = some h → dns h = .internalError → _is_safe_url S dns u = false) ∧
    (∀ h ips ip, u.hostname = some h → dns h = .resolved ips → some ip ∈ ips →
      badAddress S.BLOCKED_IP_RANGES ip = true → _is_safe_url S dns u = false) := by
  refine ⟨?_, ?_, ?_, ?_, ?_⟩
  · intro hs
    rw [_is_safe_url, if_pos hs]
  · intro h hh hblocked
    by_cases hs : ¬ (u.scheme = "http" ∨ u.scheme = "https")
    · rw [_is_safe_url, if_pos hs]
    · rw [_is_safe_url, if_neg hs, hh]
      simp only [hblocked, if_true]
  · intro h hh hdns
    by_cases hs : ¬ (u.scheme = "http" ∨ u.scheme = "https")
    · rw [_is_safe_url, if_pos hs]
    · rw [_is_safe_url, if_neg hs, hh]
      by_cases hb : hostnameBlocked S.BLOCKED_HOSTNAMES h
      · simp only [hb, if_true]
      · simp [hb, hdns]
  · intro h hh hdns
    by_cases hs : ¬ (u.scheme = "http" ∨ u.scheme = "https")
    · rw [_is_safe_url, if_pos hs]
    · rw [_is_safe_url, if_neg hs, hh]
      by_cases hb : hostnameBlocked S.BLOCKED_HOSTNAMES h
      · simp only [hb, if_true]
      · simp [hb, hdns]
  · intro h ips ip hh hdns hmem hbad
    by_cases hs : ¬ (u.scheme = "http" ∨ u.scheme = "https")
    · rw [_is_safe_url, if_pos hs]
    · rw [_is_safe_url, if_neg hs, hh]
      by_cases hb : hostnameBlocked S.BLOCKED_HOSTNAMES h
      · simp only [hb, if_true]
      · simp only [hb, if_false, hdns]
        exact ipsPass_eq_false_of_mem S.BLOCKED_IP_RANGES ips ip hmem
          (ipPasses_eq_false_of_bad S.BLOCKED_IP_RANGES ip hbad)

/-- C2 witness: a URL whose host resolves to the loopback address
`127.0.0.1` is rejected under the concrete settings. -/
theorem c2_is_safe_url_rejects_witness :
    _is_safe_url netS0 dns0 { scheme := "http", hostname := some "internal.example" } = false :=
  (c2_is_safe_url_rejects netS0 dns0
    { scheme := "http", hostname := some "internal.example" }).2.2.2.2
    "internal.example" [some (.v4 127 0 0 1)] (.v4 127 0 0 1)
    rfl (by decide) (by decide) (by decide)

/-- C8: path sanitization — `"../../etc/passwd"` sanitizes exactly to
`"etc/passwd"`; in general every surviving segment of a sanitized member
path is nonempty, is not `"."`, and contains no slash, no backslash
(normalized to `'/'`), and no `".."` occurrence; the sanitized name never
starts with `'/'`; and a member whose name sanitizes to the empty string is
skipped by the extraction loop, yielding no extraction unit and no write. -/
theorem c8_sanitization_and_empty_skip :
    _sanitize_archive_filename "../../etc/passwd" = "etc/passwd" ∧
    (∀ (s : String) (p : List Char), p ∈ sanitizeSegs s →
      p ≠ [] ∧ p ≠ ['.'] ∧ '/' ∉ p ∧ '\\' ∉ p ∧ noDoubleDot p = true) ∧
    (∀ s : String, (_sanitize_archive_filename s).data.head? ≠ some '/') ∧
    (∀ (deeper : VFile → String → Nat → ExtractResult) (name : String)
      (isDir : Bool) (declaredSize : Nat) (data : VFile) (rest : ZEntries)
      (archive_name : String) (nesting_level : Nat),
      _sanitize_archive_filename name = "" →
      zip_extract_loop deeper (.cons name isDir declaredSize data rest)
        archive_name nesting_level =
        zip_extract_loop deeper rest archive_name nesting_level) := by
  refine ⟨by decide, sanitizeSegs_spec, sanitize_no_leading_slash, ?_⟩
  intro deeper name isDir declaredSize data rest archive_name nesting_level h
  by_cases hd : isDir <;> simp [zip_extract_loop, hd, h]

/-- C8 witness: the segment guarantees on the example's first surviving
segment, and the skipping of a member named `"...."`, which sanitizes to
the empty string. -/
theorem c8_sanitization_and_empty_skip_witness :
    (['e', 't', 'c'] ≠ ([] : List Char) ∧ ['e', 't', 'c'] ≠ ['.'] ∧
      '/' ∉ ['e', 't', 'c'] ∧ '\\' ∉ ['e', 't', 'c'] ∧
      noDoubleDot ['e', 't', 'c'] = true) ∧
    zip_extract_loop (fun _ _ _ => (.ok [], []))
      (.cons "...." false 1 (.plain "x") .nil) "a.zip" 0 =
      zip_extract_loop (fun _ _ _ => (.ok [], [])) .nil "a.zip" 0 :=
  ⟨c8_sanitization_and_empty_skip.2.1 "../../etc/passwd" ['e', 't', 'c'] (by decide),
   c8_sanitization_and_empty_skip.2.2.2 (fun _ _ _ => (.ok [], [])) "...."
     false 1 (.plain "x") .nil "a.zip" 0 (by decide)⟩

/-- C9: on every page — the height trace is arbitrary, including one that
grows on every scroll — the lazy-loading scroll loop performs at most
`max_scroll_attempts` iterations, and its iteration count is exactly the
capped search for the first iteration satisfying the stop condition
(height unchanged for two consecutive iterations, or height exceeding ten
times its initial value — whichever is reached first). -/
theorem c9_scroll_loop_terminates (heights : Nat → Nat) (max_scroll_attempts : Nat) :
    scroll_iterations heights max_scroll_attempts ≤ max_scroll_attempts ∧
    scroll_iterations heights max_scroll_attempts =
      firstStopFrom heights max_scroll_attempts 1 := by
  have hspec := scroll_loop_go_spec heights max_scroll_attempts 1 (heights 0) 0
    (by omega) rfl (by rw [if_neg]; rintro ⟨h2, -⟩; omega)
  rw [scroll_iterations, hspec]
  exact ⟨firstStopFrom_le heights _ _, rfl⟩

/-- C5 counterexample: the claim says one cumulative extracted-bytes ledger
is shared across the whole archive tree, bounding the tree-wide declared
total by `MAX_EXTRACTED_SIZE`.  The code disagrees: `total_size` is a local
of each `_extract_zip_files` call, so the tree below — whose tree-wide
declared total is 120000120 > 104857600 — extracts successfully, each
archive's own total passing its private check. -/
theorem c5_counterexample :
    treeDeclaredSum ledgerOuter = 120000120 ∧
    treeDeclaredSum ledgerOuter > defaultSettings.MAX_EXTRACTED_SIZE ∧
    extract_text defaultSettings ledgerOuter "outer.zip" =
      (.ok [{ filename := "big.txt", path := "outer.zip/big.txt",
              size := 1, ftype := "txt", text := "x" },
            { filename := "big2.txt", path := "nested.zip/big2.txt",
              size := 1, ftype := "txt", text := "y" }],
       ["big.txt", "nested.zip", "big2.txt"]) :=
  ⟨by decide, by decide, by decide⟩

/-- C5 amended: the extracted-size ledger is per-archive, not tree-wide —
whenever an archive's extraction returns successfully, that archive's own
declared member-size sum is bounded by `MAX_EXTRACTED_SIZE`, each nested
archive being checked against a fresh ledger of its own. -/
theorem c5_per_archive_ledger (S : ArchiveSettings) (fuel : Nat)
    (containerSize : Nat) (entries : ZEntries) (filename : String)
    (nesting_level : Nat) (us : List ExtractionUnit)
    (h : (_extract_from_archive S fuel (.zipArchive containerSize entries)
      filename nesting_level).1 = .ok us) :
    zipDeclaredSum entries ≤ S.MAX_EXTRACTED_SIZE := by
  rw [_extract_from_archive_eq] at h
  split at h
  · exact absurd h (by simp)
  · cases fuel with
    | zero => exact absurd h (by simp)
    | succ fuel' =>
      simp only [] at h
      split at h
      · exact absurd h (by simp)
      · rcases hext : get_file_extension filename with _ | e <;> rw [hext] at h
        · exact absurd h (by simp)
        · simp only [] at h
          by_cases he : e = "zip"
          · subst he
            rw [if_pos rfl] at h
            rcases hopt : zip_prescan S entries 0 with _ | msg <;>
              simp only [hopt] at h
            · have := (zip_prescan_none_iff S entries 0 (Nat.zero_le _)).mp hopt
              omega
            · exact absurd h (by simp)
          · rw [if_neg he] at h
            exact absurd h (by simp)

/-- C5 amended witness: the successful extraction of `ledgerOuter` bounds
the outer archive's own declared total. -/
theorem c5_per_archive_ledger_witness :
    zipDeclaredSum ledgerEntries ≤ defaultSettings.MAX_EXTRACTED_SIZE :=
  c5_per_archive_ledger defaultSettings 3 500 ledgerEntries "outer.zip" 0
    [{ filename := "big.txt", path := "outer.zip/big.txt",
       size := 1, ftype := "txt", text := "x" },
     { filename := "big2.txt", path := "nested.zip/big2.txt",
       size := 1, ftype := "txt", text := "y" }] (by decide)

/-- C3 counterexample: the claim says the unit for a file inside a nested
archive carries the slash-joined chain of all ancestor archive names —
`inner.txt` inside `nested.zip` inside `outer.zip` should get the path
`outer.zip/nested.zip/inner.txt`.  The code disagrees: the recursion for a
nested archive passes only the member's basename, so the unit's path is
`nested.zip/inner.txt`, losing the `outer.zip` ancestor. -/
theorem c3_counterexample :
    extract_text defaultSettings exampleOuter "outer.zip" =
      (.ok [{ filename := "report.txt", path := "outer.zip/report.txt",
              size := 5, ftype := "txt", text := "hello" },
            { filename := "inner.txt", path := "nested.zip/inner.txt",
              size := 5, ftype := "txt", text := "world" }],
       ["report.txt", "nested.zip", "inner.txt"]) ∧
    ("nested.zip/inner.txt" : String) ≠ "outer.zip/nested.zip/inner.txt" :=
  ⟨by decide, by decide⟩

/-- C3 amended: a unit's path is `<immediate parent archive name>/<member
relative path>`; for a nested archive the units of the recursion are
returned unchanged — they do not depend on the enclosing archive's name, so
ancestor names above the immediate parent never appear.  The spec's example
therefore yields `outer.zip/report.txt` and `nested.zip/inner.txt`. -/
theorem c3_immediate_parent_paths :
    (extract_text defaultSettings exampleOuter "outer.zip" =
      (.ok [{ filename := "report.txt", path := "outer.zip/report.txt",
              size := 5, ftype := "txt", text := "hello" },
            { filename := "inner.txt", path := "nested.zip/inner.txt",
              size := 5, ftype := "txt", text := "world" }],
       ["report.txt", "nested.zip", "inner.txt"])) ∧
    (∀ (deeper : VFile → String → Nat → ExtractResult) (data : VFile)
      (filename basename an₁ an₂ : String) (n : Nat),
      is_archive_format basename = true →
      _process_extracted_file deeper data filename basename an₁ n =
        _process_extracted_file deeper data filename basename an₂ n) := by
  refine ⟨by decide, ?_⟩
  intro deeper data filename basename an₁ an₂ n h
  simp [_process_extracted_file, h]

/-- C3 amended witness: concrete instance of outer-name independence for an
archive member. -/
theorem c3_immediate_parent_paths_witness :
    _process_extracted_file (_extract_from_archive defaultSettings 2)
      exampleNested "nested.zip" "nested.zip" "outer.zip" 0 =
    _process_extracted_file (_extract_from_archive defaultSettings 2)
      exampleNested "nested.zip" "nested.zip" "another.zip" 0 :=
  c3_immediate_parent_paths.2 (_extract_from_archive defaultSettings 2)
    exampleNested "nested.zip" "nested.zip" "outer.zip" "another.zip" 0
    (by decide)

/-- C10: the claim says the system-file filter drops, case-insensitively,
any member whose sanitized path contains `.ds_store`, `thumbs.db`,
`__macosx/`, etc., so that `report_thumbs.db_v2.txt` is dropped.  The code
disagrees: `_is_system_file` lowercases the path but compares it against
the *mixed-case* list literals, so the `.DS_Store`, `Thumbs.db` and
`__MACOSX/` entries can never match anything (first three conjuncts —
contradicting the repository's own test `test_is_system_file`, which
asserts `.DS_Store` and `Thumbs.db` are detected); only the all-lowercase
entries work (fourth conjunct), and a zip member named
`report_thumbs.db_v2.txt` is extracted, not dropped (last conjunct). -/
theorem c10_system_file_filter_broken :
    _is_system_file ".DS_Store" = false ∧
    _is_system_file "Thumbs.db" = false ∧
    _is_system_file "report_thumbs.db_v2.txt" = false ∧
    _is_system_file ".git/config" = true ∧
    extract_text defaultSettings thumbsZip "t.zip" =
      (.ok [{ filename := "report_thumbs.db_v2.txt"
              path := "t.zip/report_thumbs.db_v2.txt"
              size := 1
              ftype := "txt"
              text := "x" }],
       ["report_thumbs.db_v2.txt"]) := by
  refine ⟨by decide, by decide, by decide, by decide, by decide⟩

end ExtractText
